import Mathlib

/-!
Shallow embedding of the core of the `validator` repository
(`src/validator/validation/__init__.py`, identical copy in
`src/starterkit/validator/__init__.py`, and `src/starterkit/adapter/__init__.py`,
`src/validator/service/__init__.py`, `src/starterkit/validator/user.py`).

Conventions of the embedding:
 - Python exceptions raised by a check function are modelled with `Except String`
   (the string stands for the raw exception); `None` returns are `Option`.
 - The diagnostic side channel (`logger.error` / `logger.warning` calls inside
   `accept`) is a fire-and-forget external sink and is not modelled.
 - `ValidatorResult.kwargs` and the captured `stacktrace` are debugging metadata
   never consulted by any control path of the core; the embedding keeps `level`
   and `message`.
-/

/-! ## Result model (`ValidatorResult`) -/

/-- `ValidatorResult.Level`: OK = 1, WARNING = 2, ERROR = 4 (the source enum values). -/
inductive Level where
  | ok
  | warning
  | error
deriving DecidableEq, Repr

/-- The numeric `value` of each `Level` member, as declared in the source enum. -/
def Level.val : Level → Nat
  | .ok => 1
  | .warning => 2
  | .error => 4

/-- `ValidatorResult`: immutable result value with a level and an optional message. -/
structure VResult where
  level : Level
  message : Option String := none
deriving DecidableEq, Repr

/-- `ValidatorResult.ok()`. -/
def okR : VResult := { level := Level.ok }

/-- `ValidatorResult.warning(message)`. -/
def warningR (m : String) : VResult := { level := Level.warning, message := some m }

/-- `ValidatorResult.error(message)`. -/
def errorR (m : String) : VResult := { level := Level.error, message := some m }

/-- `ValidatorResult.__bool__`: `self.level < Level.ERROR`, where `Level.__lt__`
compares the numeric enum values. -/
def asBool (r : VResult) : Bool := r.level.val < Level.error.val

/-- The position of a level in the abstract total order OK < WARNING < ERROR used by
the specification (independent of the source's numeric enum values). -/
def levelIdx : Level → Nat
  | .ok => 0
  | .warning => 1
  | .error => 2

/-! ## Check functions and the rule registry (`ValidatorMeta.__init__`) -/

/-- A check function: `fid` is the identity of the Python function object,
`run` its behaviour on a payload (raising is `Except.error`, returning `None`
is `Except.ok none`). -/
structure Check (α : Type) where
  fid : Nat
  run : α → Except String (Option VResult)

/-- A method as it sits in the class dictionary `dct`: the function together with
the list of rule names attached by the `register(rules)` decorator. -/
structure TaggedFunc (α : Type) where
  func : Check α
  rules : List String

/-- `rules[rule].append(value)` on a `defaultdict(list)` whose insertion order is
the order in which keys are first seen. -/
def addRule {α : Type} (acc : List (String × List (Check α))) (r : String)
    (f : Check α) : List (String × List (Check α)) :=
  match acc with
  | [] => [(r, [f])]
  | (k, fs) :: rest =>
    if k = r then (k, fs ++ [f]) :: rest else (k, fs) :: addRule rest r f

/-- The inner loop `for rule in vars(value).pop("rules", [])`. -/
def addRules {α : Type} (acc : List (String × List (Check α))) (rs : List String)
    (f : Check α) : List (String × List (Check α)) :=
  match rs with
  | [] => acc
  | r :: rest => addRules (addRule acc r f) rest f

/-- The outer loop `for value in [v for v in dct.values() if callable(v)]`. -/
def buildRulesAux {α : Type} (acc : List (String × List (Check α)))
    (dct : List (TaggedFunc α)) : List (String × List (Check α)) :=
  match dct with
  | [] => acc
  | tf :: rest => buildRulesAux (addRules acc tf.rules tf.func) rest

/-- `ValidatorMeta.__init__`: harvest the decorated methods of the class dictionary
into the registry `cls._rules` mapping rule name to the tuple of check functions,
in declaration order. -/
def buildRules {α : Type} (dct : List (TaggedFunc α)) : List (String × List (Check α)) :=
  buildRulesAux [] dct

/-! ## Evaluation engine (`Validator.accept`) -/

/-- `Mode`. -/
inductive Mode where
  | and
  | or
deriving DecidableEq, Repr

/-- `ValidatorError`: carries the failing rule name and the failing function
identity. -/
structure VError where
  rule : String
  fid : Nat
deriving DecidableEq, Repr

/-- The `selected` dictionary of `accept`: all rules when `rules is None`, else
the registry filtered to the keys that occur in `rules`. -/
def selectRules {α : Type} (reg : List (String × List (Check α)))
    (rules : Option (List String)) : List (String × List (Check α)) :=
  match rules with
  | none => reg
  | some rs => reg.filter (fun kv => decide (kv.1 ∈ rs))

/-- The flattening `[(rule, func) for rule, functions in selected.items() for func in functions]`. -/
def flattenPairs {α : Type} : List (String × List (Check α)) → List (String × Check α)
  | [] => []
  | (r, fs) :: rest => fs.map (fun f => (r, f)) ++ flattenPairs rest

/-- The loop body of `accept` over the flattened pairs: a raising check aborts with
`ValidatorError(_rule, func)`; a `None` result is replaced by `ok()`; an
ERROR-or-above result returns immediately in AND mode; a truthy result returns
immediately in OR mode; the fall-through after the loop is `ok()`. -/
def runChecks {α : Type} : List (String × Check α) → Mode → α → Except VError VResult
  | [], _, _ => Except.ok okR
  | (rule, f) :: rest, mode, p =>
    match f.run p with
    | Except.error _ => Except.error { rule := rule, fid := f.fid }
    | Except.ok ores =>
      let result := match ores with
        | none => okR
        | some r => r
      if Level.error.val ≤ result.level.val ∧ mode = Mode.and then Except.ok result
      else if mode = Mode.or ∧ asBool result = true then Except.ok result
      else runChecks rest mode p

/-- `Validator.accept(rules, mode, *payload)`. -/
def accept {α : Type} (reg : List (String × List (Check α))) (rules : Option (List String))
    (mode : Mode) (p : α) : Except VError VResult :=
  runChecks (flattenPairs (selectRules reg rules)) mode p

/-- Whether a check raises on a payload. -/
def isRaise {α : Type} (f : Check α) (p : α) : Bool :=
  match f.run p with
  | Except.error _ => true
  | Except.ok _ => false

/-- The normalised result a non-raising check contributes inside the loop
(`None` becomes `ok()`); junk value `okR` on a raising check. -/
def resultOf {α : Type} (f : Check α) (p : α) : VResult :=
  match f.run p with
  | Except.ok (some r) => r
  | Except.ok none => okR
  | Except.error _ => okR

deriving instance DecidableEq for Except

/-! ## Invocation guard (`validate.__call__`) -/

/-- The failure modes of the guard wrapper: `AdapterNotFoundError` when the receiver
does not adapt to `Validator`, and a propagated `ValidatorError` from `accept`. -/
inductive GuardErr where
  | adapterNotFound
  | validatorError (e : VError)
deriving DecidableEq, Repr

/-- The wrapper produced by `validate(rules, mode).__call__(function)`: `adapted` is
the outcome of `adapt(obj, Validator)` (the adapted validator is represented by its
rule registry); on success the registry gates the call of `function`. -/
def guardCall {α β : Type} (rules : Option (List String)) (mode : Mode)
    (adapted : Option (List (String × List (Check α)))) (f : α → β) (p : α) :
    Except GuardErr (Option β) :=
  match adapted with
  | none => Except.error GuardErr.adapterNotFound
  | some reg =>
    match accept reg rules mode p with
    | Except.error ve => Except.error (GuardErr.validatorError ve)
    | Except.ok res =>
      if asBool res = true then Except.ok (some (f p)) else Except.ok none

/-- The payload reaching `UserValidator`'s checks: only `name` is consulted
(`id`, `email`, `age`, `address` of the DTO are never read by the registered checks). -/
structure User where
  name : String
deriving DecidableEq, Repr

/-- `UserValidator.check_email` (rules R001, R003): raises `UserError` when
`user.name == "TOTO"`, else returns `None`. -/
def checkEmail : Check User :=
  { fid := 1
    run := fun u =>
      if u.name = "TOTO" then Except.error ("name is invalide: " ++ u.name)
      else Except.ok none }

/-- `UserValidator.check_email_r002` (rule R002): returns
`error("name is invalide R002: ...")` when `user.name == "XXX"`, else `None`. -/
def checkEmailR002 : Check User :=
  { fid := 2
    run := fun u =>
      if u.name = "XXX" then Except.ok (some (errorR ("name is invalide R002: " ++ u.name)))
      else Except.ok none }

/-- The registry harvested from `UserValidator`'s class dictionary. -/
def userRules : List (String × List (Check User)) :=
  buildRules [⟨checkEmail, ["R001", "R003"]⟩, ⟨checkEmailR002, ["R002"]⟩]

/-! ## Capability adapter (`adapt`, `Service.adapt`) -/

/-- The capability (class) types the repository adapts between: `Validator`,
the generic `Adapter` ("Adaptable") base class, and any unrelated type. -/
inductive Capability where
  | validatorCap
  | adapterCap
  | otherCap
deriving DecidableEq, Repr

/-- The concrete objects of the repository relevant to adaptation: a validator
instance, a `Service` owning a validator, and a plain object. -/
inductive PyObj where
  | userValidator
  | service (v : PyObj)
  | plain
deriving DecidableEq, Repr

/-- `isinstance(obj, capability)`: validators are instances of `Validator`;
`Service` subclasses `Adapter`. -/
def isinst : PyObj → Capability → Bool
  | .userValidator, .validatorCap => true
  | .service _, .adapterCap => true
  | _, _ => false

/-- `Service.adapt(adapter)`: returns the owned validator when asked for
`Validator`, else `None`; non-`Adapter` objects have no adapt operation. -/
def serviceAdapt : PyObj → Capability → Option PyObj
  | .service v, .validatorCap => some v
  | _, _ => none

/-- The module-level `adapt(obj, adapter)` of `starterkit.adapter`: return the
object itself if it is already an instance; else delegate to its own `adapt`
when it is an `Adapter`; else `None`. A total function: no branch raises. -/
def pyAdapt (o : PyObj) (c : Capability) : Option PyObj :=
  if isinst o c then some o
  else if isinst o Capability.adapterCap then serviceAdapt o c
  else none

/-! ## Chain of responsibility (`ValidatorChainBuilder`) -/

/-- `ValidatorChainBuilder._InnerValidatorChain`: each node holds a callback and an
optional message; `head` is a node whose `_parent` is `None`. -/
inductive VChain (α : Type) where
  | head (callback : α → Bool) (message : Option String)
  | node (parent : VChain α) (callback : α → Bool) (message : Option String)

/-- `_InnerValidatorChain.__call__`: evaluate the parent first (`ok()` for a `None`
parent), return a falsy parent result unchanged, else apply the own callback,
yielding `ok()` or `error(message or "")`. -/
def evalChain {α : Type} : VChain α → α → VResult
  | .head cb msg, a =>
    let result := okR
    if asBool result = false then result
    else if cb a then okR else errorR (msg.getD "")
  | .node pc cb msg, a =>
    let result := evalChain pc a
    if asBool result = false then result
    else if cb a then okR else errorR (msg.getD "")

/-- `ValidatorChainBuilder.__init__(callback, message)`. -/
def chainBuilderInit {α : Type} (cb : α → Bool) (msg : Option String) : VChain α :=
  VChain.head cb msg

/-- `ValidatorChainBuilder.__call__(callback, message)`: append a node whose parent
is the current chain. -/
def chainBuilderAdd {α : Type} (c : VChain α) (cb : α → Bool) (msg : Option String) :
    VChain α :=
  VChain.node c cb msg

/-- `ValidatorChainBuilder.build()`: the built `ValidatorChain` delegates its call
to the stored chain. -/
def buildChain {α : Type} (c : VChain α) : α → VResult :=
  fun a => evalChain c a

/-- `bool(data)` on a Python int: nonzero. -/
def isTruthyI (n : Int) : Bool := n != 0

/-- `data > 0`. -/
def isPositiveI (n : Int) : Bool := 0 < n

/-- `data < 10`. -/
def lessThanTenI (n : Int) : Bool := n < 10

/-- The chain of the specification example:
`chain(isTruthy,"not bool")(isPositive,"value<0")(lessThanTen,"value>=10")`. -/
def demoChain : Int → VResult :=
  buildChain
    (chainBuilderAdd
      (chainBuilderAdd (chainBuilderInit isTruthyI (some "not bool")) isPositiveI
        (some "value<0"))
      lessThanTenI (some "value>=10"))

/-! ## Concrete fixtures (used to evaluate the development on closed inputs) -/

/-- A check returning a WARNING result. -/
def wchk1 : Check Unit := ⟨31, fun _ => Except.ok (some (warningR "w"))⟩

/-- A check returning an ERROR result. -/
def wchk2 : Check Unit := ⟨32, fun _ => Except.ok (some (errorR "first"))⟩

/-- Another check returning an ERROR result. -/
def wchk3 : Check Unit := ⟨33, fun _ => Except.ok (some (errorR "second"))⟩

/-- A registry with one warning rule and two error rules, in that registration order. -/
def regW : List (String × List (Check Unit)) :=
  buildRules [⟨wchk1, ["w"]⟩, ⟨wchk2, ["e1"]⟩, ⟨wchk3, ["e2"]⟩]

/-- A check that always produces an ERROR result. -/
def errCheckW : Check Unit := ⟨11, fun _ => Except.ok (some (errorR "error"))⟩

/-- A registry whose single rule always fails. -/
def regOr : List (String × List (Check Unit)) := buildRules [⟨errCheckW, ["error"]⟩]

/-- A check that raises. -/
def raisingCheck : Check Unit := ⟨21, fun _ => Except.error "boom"⟩

/-- A check that returns `None`. -/
def goodCheck : Check Unit := ⟨22, fun _ => Except.ok none⟩

/-- A registry with one registered rule named "a". -/
def regEmptyW : List (String × List (Check Unit)) := buildRules [⟨goodCheck, ["a"]⟩]

/-- A check declared in a first validator type. -/
def chkA : Check Unit := ⟨41, fun _ => Except.ok none⟩

/-- A check declared in a second validator type. -/
def chkB : Check Unit := ⟨42, fun _ => Except.ok none⟩

/-- The class dictionary of the first validator type. -/
def dctA : List (TaggedFunc Unit) := [⟨chkA, ["a"]⟩]

/-- The class dictionary of the second validator type. -/
def dctB : List (TaggedFunc Unit) := [⟨chkB, ["a"]⟩]

/-! ## Helper lemmas -/

/-- A raising check aborts the loop at once with the wrapped error. -/
theorem runChecks_cons_raise {α : Type} (rule : String) (f : Check α)
    (rest : List (String × Check α)) (mode : Mode) (p : α) (e : String)
    (h : f.run p = Except.error e) :
    runChecks ((rule, f) :: rest) mode p = Except.error { rule := rule, fid := f.fid } := by
  simp [runChecks, h]

/-- Any `ValidatorError` produced by the loop names a pair of the evaluated list
whose check raises on the payload. -/
theorem runChecks_error_source {α : Type} (pairs : List (String × Check α)) (mode : Mode)
    (p : α) (err : VError) (h : runChecks pairs mode p = Except.error err) :
    ∃ pr, pr ∈ pairs ∧ err.rule = pr.1 ∧ err.fid = pr.2.fid ∧
      ∃ e, pr.2.run p = Except.error e := by
  induction pairs with
  | nil => simp [runChecks] at h
  | cons hd tl ih =>
    obtain ⟨rule, f⟩ := hd
    cases hre : f.run p with
    | error e =>
      rw [runChecks_cons_raise rule f tl mode p e hre] at h
      refine ⟨(rule, f), List.mem_cons_self _ _, ?_, ?_, e, hre⟩
      · exact congrArg VError.rule (Except.error.inj h).symm
      · exact congrArg VError.fid (Except.error.inj h).symm
    | ok ores =>
      simp only [runChecks, hre] at h
      split at h
      · exact absurd h (by simp)
      · split at h
        · exact absurd h (by simp)
        · obtain ⟨pr, hmem, h1, h2, h3⟩ := ih h
          exact ⟨pr, List.mem_cons_of_mem _ hmem, h1, h2, h3⟩

/-- AND-mode loop without raising checks: the returned value is the first
ERROR-or-above result of the evaluated sequence, or `ok()` when there is none. -/
theorem runChecks_and_first_error {α : Type} (pairs : List (String × Check α)) (p : α)
    (h : ∀ pr ∈ pairs, isRaise pr.2 p = false) :
    runChecks pairs Mode.and p =
      Except.ok (((pairs.map (fun pr => resultOf pr.2 p)).find?
        (fun r => !asBool r)).getD okR) := by
  induction pairs with
  | nil => simp [runChecks]
  | cons hd tl ih =>
    obtain ⟨rule, f⟩ := hd
    have hf : isRaise f p = false := h _ (List.mem_cons_self _ _)
    have htl : ∀ pr ∈ tl, isRaise pr.2 p = false :=
      fun pr hpr => h pr (List.mem_cons_of_mem _ hpr)
    rw [List.map_cons]
    cases hre : f.run p with
    | error e => simp [isRaise, hre] at hf
    | ok ores =>
      have hres : resultOf f p = ores.getD okR := by
        cases ores <;> simp [resultOf, hre]
      cases ores with
      | none =>
        simp only [runChecks, hre]
        rw [if_neg (fun hc => absurd hc.1 (by decide)),
          if_neg (fun hc => Mode.noConfusion hc.1),
          List.find?_cons_of_neg _ (by simp [hres, asBool, okR, Level.val]), ih htl]
      | some r =>
        simp only [runChecks, hre]
        by_cases hb : asBool r = true
        · have hlt : r.level.val < Level.error.val := by simpa [asBool] using hb
          rw [if_neg (fun hc => absurd hc.1 (not_le.mpr hlt)),
            if_neg (fun hc => Mode.noConfusion hc.1),
            List.find?_cons_of_neg _ (by simp [hres, hb]), ih htl]
        · have hge : Level.error.val ≤ r.level.val := not_lt.mp (by simpa [asBool] using hb)
          rw [if_pos ⟨hge, by trivial⟩, List.find?_cons_of_pos _ (by simp [hres, hb]), hres]
          simp

/-- The selection only consults membership in the rule-name list: two lists with
the same members select the same rules. -/
theorem selectRules_congr {α : Type} (reg : List (String × List (Check α)))
    (S T : List String) (h : ∀ x, x ∈ S ↔ x ∈ T) :
    selectRules reg (some S) = selectRules reg (some T) := by
  simp only [selectRules]
  exact List.filter_congr (fun kv _ => by simp [h kv.1])

/-- Restricting the rule-name list to the registered names does not change the
selection. -/
theorem selectRules_restrict {α : Type} (reg : List (String × List (Check α)))
    (S : List String) :
    selectRules reg (some S) =
      selectRules reg (some (S.filter (fun n => decide (n ∈ reg.map Prod.fst)))) := by
  simp only [selectRules]
  refine List.filter_congr (fun kv hkv => ?_)
  have hz : kv.1 ∈ reg.map Prod.fst := List.mem_map_of_mem Prod.fst hkv
  simp [List.mem_filter, hz]

/-- `addRule` preserves a per-entry invariant once the new pair satisfies it. -/
theorem addRule_entry {α : Type} (R : String → Check α → Prop)
    (acc : List (String × List (Check α))) (r : String) (f : Check α)
    (hacc : ∀ q ∈ acc, ∀ g ∈ q.2, R q.1 g) (hf : R r f) :
    ∀ q ∈ addRule acc r f, ∀ g ∈ q.2, R q.1 g := by
  induction acc with
  | nil =>
    intro q hq g hg
    simp only [addRule, List.mem_singleton] at hq
    subst hq
    simp only [List.mem_singleton] at hg
    subst hg
    exact hf
  | cons hd tl ih =>
    obtain ⟨k, fs⟩ := hd
    intro q hq g hg
    by_cases hk : k = r
    · rw [addRule, if_pos hk] at hq
      rcases List.mem_cons.mp hq with h1 | h1
      · subst h1
        rcases List.mem_append.mp hg with h2 | h2
        · exact hacc (k, fs) (List.mem_cons_self _ _) g h2
        · rw [List.mem_singleton] at h2
          subst h2
          rw [show ((k, fs ++ [g]) : String × List (Check α)).1 = r from hk]
          exact hf
      · exact hacc q (List.mem_cons_of_mem _ h1) g hg
    · rw [addRule, if_neg hk] at hq
      rcases List.mem_cons.mp hq with h1 | h1
      · subst h1
        exact hacc (k, fs) (List.mem_cons_self _ _) g hg
      · exact ih (fun q0 hq0 => hacc q0 (List.mem_cons_of_mem _ hq0)) q h1 g hg

/-- `addRules` preserves the per-entry invariant. -/
theorem addRules_entry {α : Type} (R : String → Check α → Prop)
    (acc : List (String × List (Check α))) (rs : List String) (f : Check α)
    (hacc : ∀ q ∈ acc, ∀ g ∈ q.2, R q.1 g) (hf : ∀ r ∈ rs, R r f) :
    ∀ q ∈ addRules acc rs f, ∀ g ∈ q.2, R q.1 g := by
  induction rs generalizing acc with
  | nil => simpa [addRules] using hacc
  | cons r rest ih =>
    rw [addRules]
    exact ih (addRule acc r f)
      (addRule_entry R acc r f hacc (hf r (List.mem_cons_self _ _)))
      (fun r0 hr0 => hf r0 (List.mem_cons_of_mem _ hr0))

/-- `buildRulesAux` preserves the per-entry invariant. -/
theorem buildRulesAux_entry {α : Type} (R : String → Check α → Prop)
    (acc : List (String × List (Check α))) (dct : List (TaggedFunc α))
    (hacc : ∀ q ∈ acc, ∀ g ∈ q.2, R q.1 g)
    (hdct : ∀ tf ∈ dct, ∀ r ∈ tf.rules, R r tf.func) :
    ∀ q ∈ buildRulesAux acc dct, ∀ g ∈ q.2, R q.1 g := by
  induction dct generalizing acc with
  | nil => simpa [buildRulesAux] using hacc
  | cons tf rest ih =>
    rw [buildRulesAux]
    exact ih (addRules acc tf.rules tf.func)
      (addRules_entry R acc tf.rules tf.func hacc
        (hdct tf (List.mem_cons_self _ _)))
      (fun tf0 htf0 => hdct tf0 (List.mem_cons_of_mem _ htf0))

/-- Every check function stored in a registry entry was declared in the harvested
class dictionary, tagged with that entry's rule name. -/
theorem buildRules_entry_source {α : Type} (dct : List (TaggedFunc α)) :
    ∀ q ∈ buildRules dct, ∀ g ∈ q.2,
      ∃ tf, tf ∈ dct ∧ tf.func = g ∧ q.1 ∈ tf.rules := by
  refine buildRulesAux_entry (fun r g => ∃ tf, tf ∈ dct ∧ tf.func = g ∧ r ∈ tf.rules)
    [] dct (by simp) ?_
  intro tf htf r hr
  exact ⟨tf, htf, rfl, hr⟩

/-! ## Claim theorems -/

/-- C1: the claim states that `accept` in OR mode returns the last (failing) Result
when no selected check is truthy. The code instead falls through to `return ok()`:
with a single selected check producing an ERROR result, OR-mode `accept` returns a
fresh truthy OK result, not the failing ERROR result. -/
theorem accept_or_all_failing_returns_ok :
    accept regOr (some ["error"]) Mode.or () = Except.ok okR ∧
    asBool okR = true ∧
    accept regOr (some ["error"]) Mode.or () ≠ Except.ok (errorR "error") := by
  decide

/-- C2: in AND mode, when no selected check raises, `accept` returns the first
ERROR-or-above Result of the registration-ordered evaluation sequence, or an OK
Result when there is none; and the outcome depends on the rule-name selection only
through membership, never through the order of the names. -/
theorem accept_and_first_error (α : Type) (reg : List (String × List (Check α)))
    (S : List String) (p : α)
    (h : ∀ pr ∈ flattenPairs (selectRules reg (some S)), isRaise pr.2 p = false) :
    accept reg (some S) Mode.and p =
      Except.ok ((((flattenPairs (selectRules reg (some S))).map
        (fun pr => resultOf pr.2 p)).find? (fun r => !asBool r)).getD okR) ∧
    ∀ T : List String, (∀ x, x ∈ S ↔ x ∈ T) →
      accept reg (some S) Mode.and p = accept reg (some T) Mode.and p := by
  constructor
  · exact runChecks_and_first_error _ p h
  · intro T hT
    unfold accept
    rw [selectRules_congr reg S T hT]

/-- Witness for C2: over a registry registering a warning rule and then two error
rules, AND-mode `accept` returns the ERROR result of the earliest registered failing
rule, even when the selection lists the rule names in a different order. -/
theorem accept_and_first_error_witness :
    accept regW (some ["e2", "w", "e1"]) Mode.and () = Except.ok (errorR "first") ∧
    accept regW (some ["e2", "w", "e1"]) Mode.and () =
      accept regW (some ["e1", "e2", "w"]) Mode.and () := by
  have h := accept_and_first_error Unit regW ["e2", "w", "e1"] () (by decide)
  refine ⟨h.1.trans (by decide), h.2 ["e1", "e2", "w"] ?_⟩
  intro x
  simp only [List.mem_cons, List.not_mem_nil]
  tauto

/-- C3: the invocation guard raises AdapterNotFound when the receiver does not adapt
to Validator, otherwise runs `accept` and invokes the wrapped operation (returning
its result) exactly when the combined Result is truthy, returning absent otherwise;
with rules {"R002"} over the user validator it blocks exactly name "XXX". -/
theorem guard_gates_invocation :
    (∀ (α β : Type) (rules : Option (List String)) (mode : Mode) (f : α → β) (p : α),
      guardCall rules mode (none : Option (List (String × List (Check α)))) f p =
        Except.error GuardErr.adapterNotFound) ∧
    (∀ (α β : Type) (reg : List (String × List (Check α))) (rules : Option (List String))
      (mode : Mode) (f : α → β) (p : α) (res : VResult),
      accept reg rules mode p = Except.ok res →
      guardCall rules mode (some reg) f p =
        (if asBool res = true then Except.ok (some (f p)) else Except.ok none)) ∧
    (∀ (β : Type) (f : User → β) (u : User), u.name ≠ "XXX" →
      guardCall (some ["R002"]) Mode.and (some userRules) f u = Except.ok (some (f u))) ∧
    (∀ (β : Type) (f : User → β),
      guardCall (some ["R002"]) Mode.and (some userRules) f ⟨"XXX"⟩ = Except.ok none) := by
  refine ⟨fun α β _ _ _ _ => rfl, ?_, ?_, ?_⟩
  · intro α β reg rules mode f p res hacc
    simp [guardCall, hacc]
  · intro β f u hu
    have hrun : checkEmailR002.run u = Except.ok none := by
      simp [checkEmailR002, hu]
    have hacc : accept userRules (some ["R002"]) Mode.and u = Except.ok okR := by
      show runChecks (flattenPairs (selectRules userRules (some ["R002"]))) Mode.and u = _
      rw [show flattenPairs (selectRules userRules (some ["R002"])) =
        [("R002", checkEmailR002)] from rfl]
      simp [runChecks, hrun, okR, asBool, Level.val]
    simp [guardCall, hacc, asBool, okR, Level.val]
  · intro β f
    have hacc : accept userRules (some ["R002"]) Mode.and (⟨"XXX"⟩ : User) =
        Except.ok (errorR "name is invalide R002: XXX") := by decide
    simp [guardCall, hacc, asBool, errorR, Level.val]

/-- Witness for C3: the guard lets a receiver named "YYY" through (the wrapped
operation runs and its result is returned) and returns absent for "XXX". -/
theorem guard_gates_invocation_witness :
    guardCall (some ["R002"]) Mode.and (some userRules) (fun u : User => u.name)
      (⟨"YYY"⟩ : User) = Except.ok (some "YYY") ∧
    guardCall (some ["R002"]) Mode.and (some userRules) (fun u : User => u.name)
      (⟨"XXX"⟩ : User) = Except.ok none :=
  ⟨guard_gates_invocation.2.2.1 String (fun u => u.name) ⟨"YYY"⟩ (by decide),
   guard_gates_invocation.2.2.2 String (fun u => u.name)⟩

/-- C4: a raising check aborts evaluation at once with a `ValidatorError` carrying
the failing rule name and the failing function identity (independently of any later
pairs), and every error `accept` ever produces is such a wrapped `ValidatorError`
naming a selected pair whose check raised; the raw exception never escapes. -/
theorem accept_exception_wraps_validator_error (α : Type) :
    (∀ (rule : String) (f : Check α) (rest : List (String × Check α)) (mode : Mode)
      (p : α) (e : String), f.run p = Except.error e →
      runChecks ((rule, f) :: rest) mode p =
        Except.error { rule := rule, fid := f.fid }) ∧
    (∀ (reg : List (String × List (Check α))) (rules : Option (List String)) (mode : Mode)
      (p : α) (err : VError), accept reg rules mode p = Except.error err →
      ∃ pr, pr ∈ flattenPairs (selectRules reg rules) ∧ err.rule = pr.1 ∧
        err.fid = pr.2.fid ∧ ∃ e, pr.2.run p = Except.error e) :=
  ⟨fun rule f rest mode p e h => runChecks_cons_raise rule f rest mode p e h,
   fun reg rules mode p err h =>
    runChecks_error_source (flattenPairs (selectRules reg rules)) mode p err h⟩

/-- Witness for C4: with a raising check first in line, the loop aborts immediately
with the wrapped error naming rule "exception" and function identity 21, and the
later check is never consulted. -/
theorem accept_exception_witness :
    runChecks [("exception", raisingCheck), ("later", goodCheck)] Mode.and () =
      Except.error { rule := "exception", fid := 21 } :=
  (accept_exception_wraps_validator_error Unit).1 "exception" raisingCheck
    [("later", goodCheck)] Mode.and () "boom" rfl

/-- C5: evaluating a chain node recurses to the predecessor first, returns a failing
predecessor Result unchanged, and only on predecessor success applies the own
predicate (ok on true, error(message) on false); the example chain evaluates to OK
at 5, ERROR "not bool" at 0, ERROR "value>=10" at 15 and ERROR "value<0" at -5. -/
theorem chain_eval_spec :
    (∀ (α : Type) (pc : VChain α) (cb : α → Bool) (msg : Option String) (a : α),
      (asBool (evalChain pc a) = false →
        evalChain (VChain.node pc cb msg) a = evalChain pc a) ∧
      (asBool (evalChain pc a) = true →
        evalChain (VChain.node pc cb msg) a =
          (if cb a then okR else errorR (msg.getD "")))) ∧
    demoChain 5 = okR ∧
    demoChain 0 = errorR "not bool" ∧
    demoChain 15 = errorR "value>=10" ∧
    demoChain (-5) = errorR "value<0" := by
  refine ⟨?_, by decide, by decide, by decide, by decide⟩
  intro α pc cb msg a
  constructor
  · intro hfail
    simp [evalChain, hfail]
  · intro hokp
    simp [evalChain, hokp]

/-- Witness for C5: at -5 the two-node prefix of the example chain has a truthy
predecessor, so the node applies its own predicate and fails with its message. -/
theorem chain_eval_spec_witness :
    evalChain (VChain.node (VChain.head isTruthyI (some "not bool")) isPositiveI
      (some "value<0")) (-5) = (if isPositiveI (-5) then okR else errorR "value<0") :=
  (chain_eval_spec.1 Int (VChain.head isTruthyI (some "not bool")) isPositiveI
    (some "value<0") (-5)).2 (by decide)

/-- C6: rule names not registered on the validator type contribute nothing:
`accept` over a selection behaves exactly as over the selection restricted to the
registered names, for every mode and payload (and hence unknown names never raise). -/
theorem accept_ignores_unknown_rules (α : Type) (reg : List (String × List (Check α)))
    (S : List String) (mode : Mode) (p : α) :
    accept reg (some S) mode p =
      accept reg (some (S.filter (fun n => decide (n ∈ reg.map Prod.fst)))) mode p := by
  unfold accept
  rw [selectRules_restrict reg S]

/-- C7: `adapt` returns the object itself when it already is an instance of the
capability, else delegates to the object's own adapt operation when it implements
the Adapter capability (the delegated result may be absent), else returns absent;
concretely a Service adapts to Validator by exposing its owned validator. -/
theorem adapt_algorithm :
    (∀ (o : PyObj) (c : Capability), isinst o c = true → pyAdapt o c = some o) ∧
    (∀ (o : PyObj) (c : Capability), isinst o c = false →
      isinst o Capability.adapterCap = true → pyAdapt o c = serviceAdapt o c) ∧
    (∀ (o : PyObj) (c : Capability), isinst o c = false →
      isinst o Capability.adapterCap = false → pyAdapt o c = none) ∧
    pyAdapt (PyObj.service PyObj.userValidator) Capability.validatorCap =
      some PyObj.userValidator ∧
    pyAdapt (PyObj.service PyObj.userValidator) Capability.otherCap = none ∧
    pyAdapt PyObj.plain Capability.validatorCap = none := by
  refine ⟨?_, ?_, ?_, by decide, by decide, by decide⟩
  · intro o c h
    simp [pyAdapt, h]
  · intro o c h1 h2
    simp [pyAdapt, h1, h2]
  · intro o c h1 h2
    simp [pyAdapt, h1, h2]

/-- Witness for C7: a validator instance already satisfies the Validator capability
and is returned itself. -/
theorem adapt_algorithm_witness :
    pyAdapt PyObj.userValidator Capability.validatorCap = some PyObj.userValidator :=
  adapt_algorithm.1 PyObj.userValidator Capability.validatorCap rfl

/-- C8: the registry harvested at type-definition time contains only check functions
declared in that type's own class dictionary under their declared rule names, so the
registries of two validator types with distinct check functions share no entry. -/
theorem registry_no_cross_leak (α : Type) :
    (∀ (dct : List (TaggedFunc α)), ∀ q ∈ buildRules dct, ∀ g ∈ q.2,
      ∃ tf, tf ∈ dct ∧ tf.func = g ∧ q.1 ∈ tf.rules) ∧
    (∀ (d1 d2 : List (TaggedFunc α)),
      (∀ tf1 ∈ d1, ∀ tf2 ∈ d2, tf1.func.fid ≠ tf2.func.fid) →
      ∀ q1 ∈ buildRules d1, ∀ q2 ∈ buildRules d2, ∀ g, g ∈ q1.2 → g ∉ q2.2) := by
  constructor
  · exact buildRules_entry_source
  · intro d1 d2 hdisj q1 hq1 q2 hq2 g hg1 hg2
    obtain ⟨tf1, htf1, he1, _⟩ := buildRules_entry_source d1 q1 hq1 g hg1
    obtain ⟨tf2, htf2, he2, _⟩ := buildRules_entry_source d2 q2 hq2 g hg2
    exact hdisj tf1 htf1 tf2 htf2 (by rw [he1, he2])

/-- Witness for C8: the registries built for two one-method validator types with
distinct check functions do not share the entry of the common rule name "a". -/
theorem registry_no_cross_leak_witness :
    chkA ∉ ([chkB] : List (Check Unit)) := by
  have h1 : (("a", [chkA]) : String × List (Check Unit)) ∈ buildRules dctA := by
    rw [show buildRules dctA = [("a", [chkA])] from rfl]
    exact List.mem_singleton.mpr rfl
  have h2 : (("a", [chkB]) : String × List (Check Unit)) ∈ buildRules dctB := by
    rw [show buildRules dctB = [("a", [chkB])] from rfl]
    exact List.mem_singleton.mpr rfl
  refine (registry_no_cross_leak Unit).2 dctA dctB ?_ ("a", [chkA]) h1 ("a", [chkB]) h2
    chkA (List.mem_singleton.mpr rfl)
  intro tf1 ht1 tf2 ht2
  simp only [dctA, List.mem_singleton] at ht1
  simp only [dctB, List.mem_singleton] at ht2
  subst ht1
  subst ht2
  decide

/-- C9: a Result produced by the ok, warning or error factory is truthy exactly when
its level lies strictly below ERROR in the total order OK < WARNING < ERROR. -/
theorem result_bool_iff_level_below_error :
    (∀ r : VResult, asBool r = true ↔ levelIdx r.level < levelIdx Level.error) ∧
    asBool okR = true ∧
    (∀ m, asBool (warningR m) = true) ∧
    (∀ m, asBool (errorR m) = false) ∧
    levelIdx Level.ok < levelIdx Level.warning ∧
    levelIdx Level.warning < levelIdx Level.error := by
  refine ⟨?_, rfl, fun m => rfl, fun m => rfl, by decide, by decide⟩
  intro r
  obtain ⟨lv, msg⟩ := r
  cases lv <;> simp [asBool, levelIdx, Level.val]

/-- Witness for C9: a warning Result is truthy and its level lies below ERROR. -/
theorem result_bool_iff_level_below_error_witness :
    levelIdx (warningR "w").level < levelIdx Level.error :=
  (result_bool_iff_level_below_error.1 (warningR "w")).mp rfl

/-- C10: when the selection is empty (no named rule is registered, or the type
registers no rules), `accept` returns a truthy OK-level Result for every mode. -/
theorem accept_empty_selection_ok (α : Type) (reg : List (String × List (Check α)))
    (rules : Option (List String)) (mode : Mode) (p : α)
    (h : flattenPairs (selectRules reg rules) = []) :
    accept reg rules mode p = Except.ok okR ∧ asBool okR = true ∧
      okR.level = Level.ok := by
  unfold accept
  rw [h]
  exact ⟨rfl, rfl, rfl⟩

/-- Witness for C10: a selection naming only the unregistered rule "zzz" yields the
truthy OK result under AND mode. -/
theorem accept_empty_selection_ok_witness :
    accept regEmptyW (some ["zzz"]) Mode.and () = Except.ok okR ∧
    asBool okR = true ∧ okR.level = Level.ok :=
  accept_empty_selection_ok Unit regEmptyW (some ["zzz"]) Mode.and () rfl
